import Mathlib

/-!
# Verification of the FX sentiment sentinel (`app.py`)

Shallow embedding of the core of the Streamlit app: the market-data
fetcher `get_data`, the news fetcher `get_news`, the keyword sentiment
scorer `calculate_sentiment_score` and the label classifier
`get_sentiment_color_text`, together with theorems settling the spec
claims about them.

Python strings are modelled as `List Char` (wrapped in `String` at the
interfaces); the Python substring operator `in` is the executable
`isSubstr`; `str.lower` is `toLowerStr` (all matched text is ASCII).
Prices are modelled as rationals, fallible lookups as `Option`.
-/

/-- Boolean prefix test on character lists (`List.isPrefixOf`,
written out so its equations are directly available). -/
def isPrefixOfCL : List Char → List Char → Bool
  | [], _ => true
  | _ :: _, [] => false
  | a :: as, b :: bs => a == b && isPrefixOfCL as bs

/-- Python's substring operator `needle in haystack`: `p` occurs as a
contiguous substring of `l`. -/
def isSubstr (p : List Char) : List Char → Bool
  | [] => p.isEmpty
  | c :: t => isPrefixOfCL p (c :: t) || isSubstr p t

/-- Python `str.lower` on the ASCII texts the app handles. -/
def toLowerStr (s : List Char) : List Char := s.map Char.toLower

/-- The fixed keyword weight table of `calculate_sentiment_score`
(`app.py` lines 42–55), in dictionary insertion order. -/
def weights : List (String × Int) :=
  [ ("Fed hawkish", 6), ("CPI surprise", 5), ("Non-farm strong", 4), ("US rates rise", 7),
    ("Fed dovish", -6), ("Recession fears", -4), ("Inflation slows", -5),
    ("BOJ exit", 7), ("YCC end", 8), ("Intervention warning", 6),
    ("BOJ dovish", -6), ("Japan rates stable", -4), ("Kuroda", -3),
    ("China GDP strong", 5), ("China stimulus", 4), ("PBOC stable", 3),
    ("PBOC cut", -5), ("Manufacturing weak", -4), ("Trade tensions", -3) ]

/-- The per-currency score dictionary `{"USD": 0, "JPY": 0, "CNY": 0}`:
all three tracked currency codes are always present. -/
structure ScoreBoard where
  USD : Int
  JPY : Int
  CNY : Int
deriving DecidableEq, Repr

/-- `app.py` line 65: the keyword is routed to USD when `"fed"`, `"us"`,
`"cpi"` or `"non-farm"` occurs in the lowercased keyword. -/
def usdCond (kw : List Char) : Bool :=
  isSubstr "fed".data kw || isSubstr "us".data kw ||
    isSubstr "cpi".data kw || isSubstr "non-farm".data kw

/-- `app.py` line 67: the keyword is routed to JPY when `"boj"`, `"jpy"`,
`"ycc"` or `"japan"` occurs in the lowercased keyword. -/
def jpyCond (kw : List Char) : Bool :=
  isSubstr "boj".data kw || isSubstr "jpy".data kw ||
    isSubstr "ycc".data kw || isSubstr "japan".data kw

/-- `app.py` line 69: the keyword is routed to CNY when `"china"`,
`"pboc"` or `"gdp"` occurs in the lowercased keyword. -/
def cnyCond (kw : List Char) : Bool :=
  isSubstr "china".data kw || isSubstr "pboc".data kw || isSubstr "gdp".data kw

/-- One iteration of the `for keyword, weight in weights.items()` loop of
`calculate_sentiment_score` (`app.py` lines 62–70). -/
def scoreStep (lower_news : List Char) (acc : ScoreBoard) (entry : String × Int) :
    ScoreBoard :=
  let kw := toLowerStr entry.1.data
  if isSubstr kw lower_news then
    let acc1 := if usdCond kw then { acc with USD := acc.USD + entry.2 } else acc
    let acc2 := if jpyCond kw then { acc1 with JPY := acc1.JPY + entry.2 } else acc1
    if cnyCond kw then { acc2 with CNY := acc2.CNY + entry.2 } else acc2
  else acc

/-- `calculate_sentiment_score` (`app.py` lines 40–72): lowercase the news
text, then walk the weight table, adding each matching keyword's weight to
the currencies its routing conditions select. -/
def calculate_sentiment_score (news_text : String) : ScoreBoard :=
  let lower_news := toLowerStr news_text.data
  weights.foldl (scoreStep lower_news) ⟨0, 0, 0⟩

/-- The five sentiment labels the classifier can produce, one per branch
of `get_sentiment_color_text`. -/
inductive SentimentLabel where
  | StronglyBullish
  | MildlyBullish
  | Neutral
  | MildlyBearish
  | StronglyBearish
deriving DecidableEq, Repr

/-- The display string each branch of `get_sentiment_color_text` returns. -/
def labelText : SentimentLabel → String
  | .StronglyBullish => "（极度看涨 🟢）"
  | .MildlyBullish => "（适度看涨 🟡）"
  | .StronglyBearish => "（极度看跌 🔴）"
  | .MildlyBearish => "（适度看跌 🟠）"
  | .Neutral => "（震荡观望 ⚪）"

/-- `get_sentiment_color_text` (`app.py` lines 106–116), with the exact
`if`/`elif` cascade of the source. -/
def get_sentiment_color_text (score : Int) : String :=
  if score > 5 then "（极度看涨 🟢）"
  else if score > 1 then "（适度看涨 🟡）"
  else if score < -5 then "（极度看跌 🔴）"
  else if score < -1 then "（适度看跌 🟠）"
  else "（震荡观望 ⚪）"

/-- The classifier as the spec's §4.4 table states it: fixed,
non-overlapping threshold intervals. -/
def specClassify (s : Int) : SentimentLabel :=
  if s > 5 then .StronglyBullish
  else if 1 < s ∧ s ≤ 5 then .MildlyBullish
  else if -1 ≤ s ∧ s ≤ 1 then .Neutral
  else if -5 ≤ s ∧ s < -1 then .MildlyBearish
  else .StronglyBearish

/-- A parsed feed as `feedparser` hands it to `get_news`: the entry titles,
plus the parser's error flag (`bozo`), which `get_news` never consults. -/
structure Feed where
  bozo : Bool
  entries : List String
deriving DecidableEq, Repr

/-- `'\n'`-separated join of character lists, the char-level core of
`"\n".join(...)` in `get_news` (`app.py` line 35). -/
def sepJoin : List (List Char) → List Char
  | [] => []
  | [x] => x
  | x :: y :: rest => x ++ '\n' :: sepJoin (y :: rest)

/-- The batch text `get_news` builds from a list of headlines: each
prefixed with `"- "`, joined by newlines (`app.py` lines 31–35). -/
def joinBatch (hs : List String) : String :=
  ⟨sepJoin (hs.map fun h => '-' :: ' ' :: h.data)⟩

/-- `get_news` (`app.py` lines 28–35) applied to an already-parsed feed:
takes the first 10 entry titles, prefixes `"- "`, joins with `"\n"`.
There is no error branch; the `bozo` flag is ignored. -/
def get_news (feed : Feed) : String :=
  joinBatch (feed.entries.take 10)

/-- The `'Close'` columns `yf.download` produced for the two tickers
of `get_data`; a missing column is `none` (Python: `KeyError`), each
present column an ordered list of closing prices. -/
structure MarketData where
  cny : Option (List ℚ)
  jpy : Option (List ℚ)
deriving DecidableEq

/-- `get_data` (`app.py` lines 13–25) applied to fetched market data:
latest `USD/CNY`, latest `USD/JPY`, and the derived cross-rate
`(usd_cny / usd_jpy) * 100`; `none` models the `KeyError`/`IndexError`
raised when a column is missing or empty. -/
def get_data (d : MarketData) : Option (ℚ × ℚ × ℚ) := do
  let cnySeries ← d.cny
  let usd_cny ← cnySeries.getLast?
  let jpySeries ← d.jpy
  let usd_jpy ← jpySeries.getLast?
  pure (usd_cny, usd_jpy, (usd_cny / usd_jpy) * 100)

/-- Modelled from the spec: the time-bounded market-data cache that
`@st.cache_data(ttl=3600)` wraps around `get_data` — the decorator's
implementation lives in Streamlit, not in this repository, so §5 of the
spec is the authority: one entry holding the fetch time and the cached
value. -/
structure CacheState (α : Type) where
  entry : Option (Nat × α)
deriving DecidableEq

/-- Modelled from the spec: one cached call. Within `ttl` seconds of the
stored fetch the cached value is returned and no upstream request is made;
otherwise a refresh is mandatory. Returns (value, new state, whether an
upstream fetch happened). -/
def cacheCall {α : Type} (ttl : Nat) (fetch : Nat → α) (s : CacheState α)
    (now : Nat) : α × CacheState α × Bool :=
  match s.entry with
  | some (t0, v) =>
      if now < t0 + ttl then (v, s, false)
      else (fetch now, ⟨some (now, fetch now)⟩, true)
  | none => (fetch now, ⟨some (now, fetch now)⟩, true)

/-! ## Helper lemmas on the string model -/

lemma isPrefixOfCL_nil (p : List Char) : isPrefixOfCL p [] = p.isEmpty := by
  cases p <;> rfl

lemma isPrefixOfCL_append_newline (p : List Char) (hnl : '\n' ∉ p) :
    ∀ a b : List Char, isPrefixOfCL p (a ++ '\n' :: b) = isPrefixOfCL p a := by
  induction p with
  | nil => intro a b; cases a <;> rfl
  | cons q ps ih =>
    intro a b
    cases a with
    | nil =>
      have hq : (q == '\n') = false :=
        beq_eq_false_iff_ne.mpr fun h => hnl (h ▸ List.mem_cons_self q ps)
      simp only [List.nil_append, isPrefixOfCL, hq, Bool.false_and]
    | cons c as =>
      have hih := ih (fun h => hnl (List.mem_cons_of_mem q h)) as b
      simp only [List.cons_append, isPrefixOfCL]
      exact congrArg (fun z => q == c && z) hih

lemma isSubstr_nil_val (p : List Char) : isSubstr p [] = p.isEmpty := rfl

lemma isSubstr_append_newline (p : List Char) (hnl : '\n' ∉ p) :
    ∀ a b : List Char, isSubstr p (a ++ '\n' :: b) = (isSubstr p a || isSubstr p b) := by
  intro a b
  induction a with
  | nil =>
    show isSubstr p ('\n' :: b) = (isSubstr p [] || isSubstr p b)
    simp only [isSubstr]
    rw [show isPrefixOfCL p ('\n' :: b) = isPrefixOfCL p [] from
      isPrefixOfCL_append_newline p hnl [] b, isPrefixOfCL_nil]
  | cons c as ih =>
    show isSubstr p (c :: (as ++ '\n' :: b)) = _
    simp only [isSubstr]
    rw [show isPrefixOfCL p (c :: (as ++ '\n' :: b)) = isPrefixOfCL p (c :: as) from
      isPrefixOfCL_append_newline p hnl (c :: as) b, ih, Bool.or_assoc]

lemma isSubstr_sepJoin (p : List Char) (hnl : '\n' ∉ p) (hne : p ≠ []) :
    ∀ pieces : List (List Char),
      isSubstr p (sepJoin pieces) = pieces.any (fun x => isSubstr p x) := by
  intro pieces
  induction pieces with
  | nil =>
    show isSubstr p [] = false
    rw [isSubstr_nil_val]
    cases p with
    | nil => exact absurd rfl hne
    | cons _ _ => rfl
  | cons x tail ih =>
    cases tail with
    | nil => simp [sepJoin]
    | cons y rest =>
      show isSubstr p (x ++ '\n' :: sepJoin (y :: rest)) = _
      rw [isSubstr_append_newline p hnl, ih]
      simp [List.any_cons]

lemma toLowerStr_append (a b : List Char) :
    toLowerStr (a ++ b) = toLowerStr a ++ toLowerStr b :=
  List.map_append Char.toLower a b

lemma toLowerStr_cons (c : Char) (l : List Char) :
    toLowerStr (c :: l) = Char.toLower c :: toLowerStr l := rfl

lemma toLowerStr_sepJoin : ∀ pieces : List (List Char),
    toLowerStr (sepJoin pieces) = sepJoin (pieces.map toLowerStr) := by
  intro pieces
  induction pieces with
  | nil => rfl
  | cons x tail ih =>
    cases tail with
    | nil => rfl
    | cons y rest =>
      show toLowerStr (x ++ '\n' :: sepJoin (y :: rest)) = _
      rw [toLowerStr_append, toLowerStr_cons, ih]
      rfl

/-- Every phrase of the weight table is non-empty and newline-free after
lowercasing. -/
lemma weights_phrases_ok :
    ∀ e ∈ weights, toLowerStr e.1.data ≠ [] ∧ '\n' ∉ toLowerStr e.1.data := by decide

/-- The scorer only looks at which phrases are present in the lowercased
text: two texts with the same per-phrase presence get the same board. -/
lemma score_congr (t₁ t₂ : String)
    (h : ∀ e ∈ weights, isSubstr (toLowerStr e.1.data) (toLowerStr t₁.data) =
      isSubstr (toLowerStr e.1.data) (toLowerStr t₂.data)) :
    calculate_sentiment_score t₁ = calculate_sentiment_score t₂ := by
  show weights.foldl (scoreStep (toLowerStr t₁.data)) ⟨0, 0, 0⟩ =
    weights.foldl (scoreStep (toLowerStr t₂.data)) ⟨0, 0, 0⟩
  exact List.foldl_ext (scoreStep (toLowerStr t₁.data)) (scoreStep (toLowerStr t₂.data))
    (⟨0, 0, 0⟩ : ScoreBoard) fun acc e he => by
      simp only [scoreStep]
      rw [h e he]

lemma any_comp_map {α β : Type} (f : α → β) (p : β → Bool) :
    ∀ l : List α, (l.map f).any p = l.any (fun a => p (f a))
  | [] => rfl
  | x :: xs => by
    simp only [List.map_cons, List.any_cons, any_comp_map f p xs]

lemma any_congr_mem {α : Type} (f : α → Bool) {l₁ l₂ : List α}
    (h : ∀ x, x ∈ l₁ ↔ x ∈ l₂) : l₁.any f = l₂.any f := by
  rw [Bool.eq_iff_iff, List.any_eq_true, List.any_eq_true]
  constructor
  · rintro ⟨x, hx, hf⟩; exact ⟨x, (h x).1 hx, hf⟩
  · rintro ⟨x, hx, hf⟩; exact ⟨x, (h x).2 hx, hf⟩

/-- A newline-free, non-empty phrase occurs in a joined batch text iff it
occurs in one of the `"- "`-prefixed headlines. -/
lemma isSubstr_joinBatch (p : List Char) (hnl : '\n' ∉ p) (hne : p ≠ [])
    (hs : List String) :
    isSubstr p (toLowerStr (joinBatch hs).data) =
      hs.any (fun h => isSubstr p (toLowerStr ('-' :: ' ' :: h.data))) := by
  show isSubstr p (toLowerStr (sepJoin (hs.map fun h => '-' :: ' ' :: h.data))) = _
  rw [toLowerStr_sepJoin, isSubstr_sepJoin p hnl hne, List.map_map,
    any_comp_map (toLowerStr ∘ fun h => '-' :: ' ' :: h.data) (fun x => isSubstr p x) hs]
  rfl

/-! ## Claim theorems -/

/-- C1: the end-to-end fixture. The claim expects USD=0/JPY=+7/CNY=+4, but
on the code the batch containing "BOJ exit" and "China stimulus" scores
USD=+4, JPY=+7, CNY=+4: the USD routing test `"us" in keyword` fires inside
the keyword "China stimulus" ("stimulUS"), so USD is labelled MildlyBullish
rather than Neutral. This theorem evaluates the code at the failing
input. -/
theorem c1_code_eval :
    calculate_sentiment_score (joinBatch
      ["BOJ exit", "China stimulus", "Oil prices steady", "Gold edges higher",
       "European stocks mixed", "Bitcoin holds range", "Bond yields dip",
       "Copper slips", "Wheat futures flat", "Aussie dollar firm"]) = ⟨4, 7, 4⟩ ∧
    (⟨4, 7, 4⟩ : ScoreBoard).USD ≠ 0 ∧
    get_sentiment_color_text 4 = labelText .MildlyBullish ∧
    labelText .MildlyBullish ≠ labelText .Neutral := by decide

/-- C2: the claim says every lexicon entry has a non-empty affinity set
(and that empty ones are rejected at startup). On the code six entries —
"Recession fears", "Inflation slows", "Intervention warning", "Kuroda",
"Manufacturing weak", "Trade tensions" — satisfy none of the three routing
conditions, so their weight is added to no currency; no load-time
validation exists. Evaluated here: the six dead entries, and a batch that
matches "Kuroda" yet leaves every score at 0. -/
theorem c2_code_eval :
    (("Kuroda", (-3 : Int)) ∈ weights) ∧
    weights.filter (fun e => !(usdCond (toLowerStr e.1.data) ||
        jpyCond (toLowerStr e.1.data) || cnyCond (toLowerStr e.1.data))) =
      [("Recession fears", -4), ("Inflation slows", -5), ("Intervention warning", 6),
       ("Kuroda", -3), ("Manufacturing weak", -4), ("Trade tensions", -3)] ∧
    isSubstr (toLowerStr "Kuroda".data) (toLowerStr "- Kuroda speaks".data) = true ∧
    calculate_sentiment_score "- Kuroda speaks" = ⟨0, 0, 0⟩ := by decide

/-- C3: `get_sentiment_color_text` is total over ℤ and agrees with the
spec's non-overlapping threshold table; in particular 5 ↦ MildlyBullish,
6 ↦ StronglyBullish, 1 ↦ Neutral, −1 ↦ Neutral, −2 ↦ MildlyBearish. -/
theorem c3_classifier_thresholds :
    (∀ s : Int, get_sentiment_color_text s = labelText (specClassify s)) ∧
    specClassify 5 = .MildlyBullish ∧ specClassify 6 = .StronglyBullish ∧
    specClassify 1 = .Neutral ∧ specClassify (-1) = .Neutral ∧
    specClassify (-2) = .MildlyBearish := by
  refine ⟨fun s => ?_, by decide, by decide, by decide, by decide, by decide⟩
  unfold get_sentiment_color_text specClassify
  split_ifs <;> first | rfl | omega

/-- C4: matching is presence-only — the board depends only on which
phrases occur in the text, not on how often; and the batch
["Fed hawkish move", "Fed hawkish again"], where "Fed hawkish" occurs
twice, scores USD=6, not 12. -/
theorem c4_presence_only :
    (∀ t₁ t₂ : String,
      (∀ e ∈ weights, isSubstr (toLowerStr e.1.data) (toLowerStr t₁.data) =
        isSubstr (toLowerStr e.1.data) (toLowerStr t₂.data)) →
      calculate_sentiment_score t₁ = calculate_sentiment_score t₂) ∧
    calculate_sentiment_score "- Fed hawkish move\n- Fed hawkish again" = ⟨6, 0, 0⟩ :=
  ⟨score_congr, by decide⟩

/-- Witness for C4: one occurrence and two occurrences of "Fed hawkish"
have the same presence bits, hence the same board. -/
theorem c4_presence_only_witness :
    calculate_sentiment_score "- Fed hawkish move" =
      calculate_sentiment_score "- Fed hawkish move\n- Fed hawkish again" :=
  c4_presence_only.1 _ _ (by decide)

/-- C5: the empty batch scores without error and every tracked currency is
present with score 0 (the `ScoreBoard` structure always carries all three
codes). -/
theorem c5_empty_batch :
    joinBatch [] = "" ∧ calculate_sentiment_score (joinBatch []) = ⟨0, 0, 0⟩ ∧
    calculate_sentiment_score "" = ⟨0, 0, 0⟩ := by decide

/-- C6: the scorer is deterministic — identical input text yields an
identical board (it is a pure function of the text and the fixed table). -/
theorem c6_deterministic : ∀ t₁ t₂ : String, t₁ = t₂ →
    calculate_sentiment_score t₁ = calculate_sentiment_score t₂ :=
  fun _ _ h => congrArg calculate_sentiment_score h

/-- Witness for C6 at a concrete batch text. -/
theorem c6_deterministic_witness :
    calculate_sentiment_score "- BOJ exit" = calculate_sentiment_score "- BOJ exit" :=
  c6_deterministic _ _ rfl

/-- Counterexample for C7: a feed that failed to parse (`bozo`, zero
entries) gets the ordinary empty batch back — indistinguishable from a
successfully parsed empty feed; no `FeedUnreachable` value exists in the
code. -/
theorem c7_counterexample :
    get_news ⟨true, []⟩ = "" ∧ get_news ⟨true, []⟩ = get_news ⟨false, []⟩ :=
  ⟨rfl, rfl⟩

/-- C7 amended: a feed with zero entries yields the empty batch, not an
error; and `get_news` never consults the parser's error flag, so an
unreachable or unparsable source yields the same empty batch instead of a
`FeedUnreachable` error. -/
theorem c7_no_error_path : ∀ (b₁ b₂ : Bool) (entries : List String),
    get_news ⟨b₁, entries⟩ = get_news ⟨b₂, entries⟩ ∧
    (entries = [] → get_news ⟨b₁, entries⟩ = "") :=
  fun _ _ entries => ⟨rfl, fun h => by rw [h]; rfl⟩

/-- Witness for C7's amended theorem at a concrete bozo feed. -/
theorem c7_no_error_path_witness :
    get_news ⟨true, []⟩ = get_news ⟨false, []⟩ ∧ get_news ⟨true, []⟩ = "" :=
  ⟨(c7_no_error_path true false []).1, (c7_no_error_path true false []).2 rfl⟩

/-- C8: a missing USD/JPY series (the cross-rate denominator) makes
`get_data` fail (`none`, the `KeyError` path) instead of producing a
number; with both series present the snapshot carries the cross-rate
`(latest USD/CNY ÷ latest USD/JPY) × 100`. -/
theorem c8_cross_rate :
    (∀ d : MarketData, d.jpy = none → get_data d = none) ∧
    (∀ (d : MarketData) (cs js : List ℚ) (c j : ℚ),
      d.cny = some cs → d.jpy = some js →
      cs.getLast? = some c → js.getLast? = some j →
      get_data d = some (c, j, c / j * 100)) := by
  constructor
  · intro d h
    cases hc : d.cny with
    | none => simp [get_data, hc]
    | some cs =>
      cases hl : cs.getLast? with
      | none => simp [get_data, hc, hl]
      | some c => simp [get_data, hc, hl, h]
  · intro d cs js c j h1 h2 h3 h4
    simp [get_data, h1, h2, h3, h4]

/-- Witness for C8: a snapshot missing the USD/JPY column fails; a
complete snapshot yields the scaled ratio. -/
theorem c8_cross_rate_witness :
    get_data ⟨some [7], none⟩ = none ∧
    get_data ⟨some [71 / 10], some [155]⟩ = some (71 / 10, 155, 71 / 10 / 155 * 100) :=
  ⟨c8_cross_rate.1 _ rfl, c8_cross_rate.2 _ _ _ _ _ rfl rfl rfl rfl⟩

/-- C9 (cache modelled from the spec): with the configured one-hour TTL, a
cold call at `t₁` fetches and stores; a second identical call at
`t₂ < t₁ + 3600` returns the same snapshot from the same cache state with
no upstream fetch; a call at `t₃ ≥ t₁ + 3600` must fetch again. -/
theorem c9_cache_ttl (upstream : Nat → MarketData) (t₁ t₂ t₃ : Nat)
    (_h₁₂ : t₁ ≤ t₂) (h₂ : t₂ < t₁ + 3600) (h₃ : t₁ + 3600 ≤ t₃) :
    cacheCall 3600 (fun t => get_data (upstream t)) ⟨none⟩ t₁ =
      (get_data (upstream t₁), ⟨some (t₁, get_data (upstream t₁))⟩, true) ∧
    cacheCall 3600 (fun t => get_data (upstream t))
        ⟨some (t₁, get_data (upstream t₁))⟩ t₂ =
      (get_data (upstream t₁), ⟨some (t₁, get_data (upstream t₁))⟩, false) ∧
    (cacheCall 3600 (fun t => get_data (upstream t))
        ⟨some (t₁, get_data (upstream t₁))⟩ t₃).2.2 = true := by
  refine ⟨rfl, ?_, ?_⟩
  · simp only [cacheCall]
    rw [if_pos h₂]
  · simp only [cacheCall]
    rw [if_neg (Nat.not_lt.mpr h₃)]

/-- Witness for C9: a concrete upstream, first call at time 0, second at
1800 (hit), third at 3600 (mandatory refresh). -/
theorem c9_cache_ttl_witness :
    cacheCall 3600 (fun t => get_data ((fun _ => (⟨some [7], some [155]⟩ : MarketData)) t))
        ⟨none⟩ 0 =
      (get_data ⟨some [7], some [155]⟩, ⟨some (0, get_data ⟨some [7], some [155]⟩)⟩, true) ∧
    cacheCall 3600 (fun t => get_data ((fun _ => (⟨some [7], some [155]⟩ : MarketData)) t))
        ⟨some (0, get_data ⟨some [7], some [155]⟩)⟩ 1800 =
      (get_data ⟨some [7], some [155]⟩, ⟨some (0, get_data ⟨some [7], some [155]⟩)⟩, false) ∧
    (cacheCall 3600 (fun t => get_data ((fun _ => (⟨some [7], some [155]⟩ : MarketData)) t))
        ⟨some (0, get_data ⟨some [7], some [155]⟩)⟩ 3600).2.2 = true :=
  c9_cache_ttl (fun _ => ⟨some [7], some [155]⟩) 0 1800 3600
    (by decide) (by decide) (by decide)

/-- C10: the board is invariant under reordering and duplication of
headlines: any two headline lists with the same members produce the same
board from their `"- "`-prefixed, newline-joined batch text — no lexicon
phrase contains the newline delimiter, so matching decomposes over the
headlines, where only presence matters. -/
theorem c10_batch_invariance : ∀ hs₁ hs₂ : List String,
    (∀ s, s ∈ hs₁ ↔ s ∈ hs₂) →
    calculate_sentiment_score (joinBatch hs₁) =
      calculate_sentiment_score (joinBatch hs₂) := by
  intro hs₁ hs₂ hmem
  apply score_congr
  intro e he
  obtain ⟨hne, hnl⟩ := weights_phrases_ok e he
  rw [isSubstr_joinBatch _ hnl hne hs₁, isSubstr_joinBatch _ hnl hne hs₂]
  exact any_congr_mem _ hmem

/-- Witness for C10: a permuted batch with a duplicated headline scores
the same as the original two-headline batch. -/
theorem c10_batch_invariance_witness :
    calculate_sentiment_score (joinBatch ["BOJ exit", "China stimulus"]) =
      calculate_sentiment_score (joinBatch ["China stimulus", "BOJ exit", "BOJ exit"]) :=
  c10_batch_invariance _ _ (by
    intro s
    simp only [List.mem_cons, List.not_mem_nil, or_false]
    tauto)
